import Mathlib

/-!
Shallow embedding of the fluid property lookup engine
(`src/fluid_lookup/lookup.py`, fed by the table produced by
`src/convert_and_merge.py`).

Numeric values are modelled as rationals; every computation the engine
performs on them (min/max, comparisons, bilinear interpolation) is exact
at the inputs the claims use.  Missing values (pandas `NaN`) are modelled
as `Option` being `none`; scipy's `RegularGridInterpolator` with
`bounds_error=False, fill_value=nan` propagates a `NaN` corner to the
result even when its bilinear weight is zero, which the embedding mirrors
by requiring all four corner cells of the selected interpolation cell to
be present.
-/

set_option allowUnsafeReducibility true
attribute [local semireducible] Rat.add Rat.sub Rat.mul Rat.inv

namespace FluidLib

instance {ε α : Type} [DecidableEq ε] [DecidableEq α] :
    DecidableEq (Except ε α) := fun x y =>
  match x, y with
  | .ok a, .ok b =>
      if h : a = b then isTrue (by rw [h])
      else isFalse (fun hh => by cases hh; exact h rfl)
  | .error a, .error b =>
      if h : a = b then isTrue (by rw [h])
      else isFalse (fun hh => by cases hh; exact h rfl)
  | .ok _, .error _ => isFalse (fun hh => by cases hh)
  | .error _, .ok _ => isFalse (fun hh => by cases hh)

abbrev Val := ℚ

/-- One row of the long-form master table.  `source` records which input
workbook the row came from; note that `convert_and_merge.py` keeps only
`t`, `p`, the property columns and `fluid`, so the engine never reads this
field.  `props` maps a (normalized) column name to its optional value; a
`none` models a pandas `NaN` cell. -/
structure Row where
  fluid : String
  source : String
  t : Val
  p : Val
  props : List (String × Option Val)
deriving DecidableEq, Repr

/-- A long-form table: the column names plus the rows.  Rows with missing
`t`/`p` are already excluded (contract of `convert_and_merge.main`). -/
structure Table where
  columns : List String
  rows : List Row
deriving DecidableEq, Repr

/-- `FluidLibrary.ALLOWED_PROPERTIES`, in the order they are written in
the source (Python iterates the set in an unspecified order; that order
only affects dict-key ordering, never which keys are present). -/
def ALLOWED_PROPERTIES : List String :=
  ["density", "internal_energy", "enthalpy", "specific_heat_capacity",
   "entropy", "compressibility", "fugacity_coefficient",
   "saturation_pressure", "saturation_temperature", "vapor_density",
   "liquid_density", "viscosity", "thermal_conductivity",
   "surface_tension", "molar_mass", "critical_temperature",
   "critical_pressure", "acentric_factor", "triple_point_temperature",
   "triple_point_pressure"]

/-- `FluidLibrary.SYNONYMS`, in source order. -/
def SYNONYMS : List (String × String) := [("h2o", "water"), ("water", "water")]

/-- Whitespace characters stripped by Python's `str.strip()` (the subset
relevant to string literals appearing in the table / queries). -/
def isWS (c : Char) : Bool :=
  c = ' ' || c = '\t' || c = '\n' || c = '\r'

def trimChars (l : List Char) : List Char :=
  ((l.dropWhile isWS).reverse.dropWhile isWS).reverse

/-- Python `str.strip()`. -/
def trimS (s : String) : String := ⟨trimChars s.data⟩

/-- Python `str.lower()` (ASCII, which covers all names in play). -/
def lowerS (s : String) : String := ⟨s.data.map Char.toLower⟩

/-- Python `str.startswith`. -/
def startsWithS (s pre : String) : Bool :=
  decide (s.data.take pre.data.length = pre.data)

/-- Per-character form of the column normalization chain
`c.strip().lower().replace(' ','_').replace('(','').replace(')','')
.replace('/','_').replace('.','_')`; the replacement targets are single
characters and the outputs are never themselves replaced, so the chain is
exactly this character map applied after stripping. -/
def normChar (c : Char) : List Char :=
  if c = ' ' then ['_']
  else if c = '(' then []
  else if c = ')' then []
  else if c = '/' then ['_']
  else if c = '.' then ['_']
  else [c.toLower]

def normalizeCol (c : String) : String :=
  ⟨(trimChars c.data).foldr (fun ch acc => normChar ch ++ acc) []⟩

/-- Value of row `r` in column `c` (`NaN`-aware cell access). -/
def Row.val (r : Row) (c : String) : Option Val := (r.props.lookup c).join

/-- Renaming the columns of a DataFrame renames the keys of every row. -/
def normRow (r : Row) : Row :=
  { r with props := r.props.map (fun kv => (normalizeCol kv.1, kv.2)) }

/-- The column normalization performed at the top of `__init__`. -/
def normTable (tbl : Table) : Table :=
  ⟨tbl.columns.map normalizeCol, tbl.rows.map normRow⟩

/-- Step 4 of `__init__`: for each allowed property, the first column
equal to it or starting with `prop + "_"`. -/
def mkPropMap (cols : List String) : List (String × String) :=
  ALLOWED_PROPERTIES.filterMap (fun prop =>
    (cols.find? (fun c => c = prop || startsWithS c (prop ++ "_"))).map
      (fun c => (prop, c)))

/-- Python dict assignment `d[k] = v`: replace in place, else append. -/
def upsert (d : List (String × String)) (k v : String) :
    List (String × String) :=
  if (d.lookup k).isSome then
    d.map (fun kv => if kv.1 = k then (k, v) else kv)
  else d ++ [(k, v)]

/-- Code-point lexicographic order on character lists, the order Python's
`sorted` uses on strings. -/
def strLtB : List Char → List Char → Bool
  | [], [] => false
  | [], _ :: _ => true
  | _ :: _, [] => false
  | a :: as, b :: bs =>
    if a.toNat < b.toNat then true
    else if b.toNat < a.toNat then false
    else strLtB as bs

def strLeB (a b : String) : Bool := ! strLtB b.data a.data

def sortStrings (l : List String) : List String :=
  List.insertionSort (fun a b => strLeB a b = true) l

def sortVals (l : List Val) : List Val :=
  List.insertionSort (· ≤ ·) l

/-- `sorted(self.df['fluid'].unique())`. -/
def tableFluids (tbl : Table) : List String :=
  sortStrings (tbl.rows.map (·.fluid)).dedup

/-- Step 5 of `__init__`: `{f.lower(): f for f in fluids}` then the
`SYNONYMS` entries, each later assignment overwriting. -/
def mkAliases (tbl : Table) : List (String × String) :=
  SYNONYMS.foldl (fun d kv => upsert d kv.1 kv.2)
    ((tableFluids tbl).foldl (fun d f => upsert d (lowerS f) f) [])

/-- `available_fluids`: `sorted(set(self._aliases.values()))`. -/
def available_fluids_of (al : List (String × String)) : List String :=
  sortStrings (al.map (·.2)).dedup

def fluidRows (tbl : Table) (f : String) : List Row :=
  tbl.rows.filter (fun r => r.fluid = f)

def foldMin (x : Val) (l : List Val) : Val := l.foldl min x
def foldMax (x : Val) (l : List Val) : Val := l.foldl max x

/-- Step 6 of `__init__`, for one fluid: min/max of `t` and `p` over all
rows of that fluid.  `none` models the `NaN` bounds pandas produces for a
fluid with no rows (every comparison against them is false). -/
def fluidBounds (tbl : Table) (f : String) :
    Option (Val × Val × Val × Val) :=
  match fluidRows tbl f with
  | [] => none
  | r :: rs =>
      some (foldMin r.t (rs.map (·.t)), foldMax r.t (rs.map (·.t)),
            foldMin r.p (rs.map (·.p)), foldMax r.p (rs.map (·.p)))

def mkRanges (tbl : Table) (al : List (String × String)) :
    List (String × Option (Val × Val × Val × Val)) :=
  (available_fluids_of al).map (fun f => (f, fluidBounds tbl f))

/-- The rectangular grid behind one `RegularGridInterpolator`:
`cells.get i |>.get j` is the value at `(Ts_i, Ps_j)`, `none` for a
pandas `NaN` produced by `reindex` where no row sampled that point. -/
structure Grid where
  Ts : List Val
  Ps : List Val
  cells : List (List (Option Val))
deriving DecidableEq, Repr

/-- `pandas.Series.unstack` raises `ValueError: Index contains duplicate
entries, cannot reshape` when the `(t, p)` index repeats. -/
inductive BuildErr | duplicateIndex
deriving DecidableEq, Repr

/-- `self.df[self.df['fluid'] == fluid].dropna(subset=['t','p',col])`
(`t` and `p` are never missing in the master table). -/
def propRows (tbl : Table) (fluid col : String) : List Row :=
  tbl.rows.filter (fun r => r.fluid = fluid && (r.val col).isSome)

def hasDupTP : List Row → Bool
  | [] => false
  | r :: rs => rs.any (fun s => s.t = r.t && s.p = r.p) || hasDupTP rs

/-- The grid-construction part of `_build_interp`: filter, distinct sorted
axes, the `< 2` early return (cached as unavailable), then the
`set_index(['t','p']).unstack('p').reindex(Ts, Ps)` pivot, which errors on
a duplicated `(t, p)` coordinate and otherwise places each filtered row's
value at its exact coordinate pair. -/
def build_grid (tbl : Table) (fluid col : String) :
    Except BuildErr (Option Grid) :=
  let grp := propRows tbl fluid col
  let Ts := sortVals (grp.map (·.t)).dedup
  let Ps := sortVals (grp.map (·.p)).dedup
  if Ts.length < 2 || Ps.length < 2 then .ok none
  else if hasDupTP grp then .error .duplicateIndex
  else .ok (some ⟨Ts, Ps,
    Ts.map (fun t => Ps.map (fun p =>
      (grp.find? (fun r => r.t = t && r.p = p)).bind (fun r => r.val col)))⟩)

/-- scipy cell search: `searchsorted(xs, x, side='right') - 1`, clipped to
`[0, len - 2]` (callers guarantee `xs.head ≤ x`). -/
def cellIndex (xs : List Val) (x : Val) : Nat :=
  min (xs.countP (fun a => decide (a ≤ x)) - 1) (xs.length - 2)

def cellAt (g : Grid) (i j : Nat) : Option Val :=
  (g.cells.getD i []).getD j none

/-- `RegularGridInterpolator(..., bounds_error=False, fill_value=nan)` at
one point, method `"linear"`: `NaN` outside the sampled box, otherwise the
four-corner weighted sum over the selected cell.  A `NaN` corner makes the
sum `NaN` even under a zero weight (`0 * NaN = NaN`), hence the result is
a value exactly when all four corners are present. -/
def gridEval (g : Grid) (T P : Val) : Option Val :=
  if g.Ts.headD 0 ≤ T ∧ T ≤ g.Ts.getLastD 0 ∧
     g.Ps.headD 0 ≤ P ∧ P ≤ g.Ps.getLastD 0 then
    let i := cellIndex g.Ts T
    let j := cellIndex g.Ps P
    let yt := (T - g.Ts.getD i 0) / (g.Ts.getD (i+1) 0 - g.Ts.getD i 0)
    let yp := (P - g.Ps.getD j 0) / (g.Ps.getD (j+1) 0 - g.Ps.getD j 0)
    match cellAt g i j, cellAt g i (j+1), cellAt g (i+1) j,
          cellAt g (i+1) (j+1) with
    | some v00, some v01, some v10, some v11 =>
        some ((1 - yt) * (1 - yp) * v00 + (1 - yt) * yp * v01
              + yt * (1 - yp) * v10 + yt * yp * v11)
    | _, _, _, _ => none
  else none

abbrev Cache := List ((String × String) × Option Grid)

/-- The engine state (`self`): the loaded table, `_prop_map`, `_aliases`,
`_ranges` and the interpolator cache (`None` cached as `none`). -/
structure FluidLibrary where
  df : Table
  prop_map : List (String × String)
  aliases : List (String × String)
  ranges : List (String × Option (Val × Val × Val × Val))
  cache : Cache

/-- `__init__`: normalize columns, build `_prop_map`, `_aliases`,
`_ranges`; the cache starts empty. -/
def FluidLibrary.init (raw : Table) : FluidLibrary :=
  let tbl := normTable raw
  let al := mkAliases tbl
  { df := tbl, prop_map := mkPropMap tbl.columns, aliases := al,
    ranges := mkRanges tbl al, cache := [] }

/-- Caller-visible failures: `KeyError` from `_canonical_fluid`, the two
range `ValueError`s, the pandas reshape `ValueError` escaping
`_build_interp`, and a `KeyError` on `self._ranges` (unreachable for
engines built by `init`). -/
inductive QErr | unknownFluid | outOfRange | buildFailure | keyError
deriving DecidableEq, Repr

inductive Entry | value (v : Val) | na
deriving DecidableEq, Repr

/-- `fluid.strip().lower()`. -/
def normName (s : String) : String := lowerS (trimS s)

/-- `_canonical_fluid`. -/
def canonical_fluid (al : List (String × String)) (fluid : String) :
    Except QErr String :=
  match al.lookup (normName fluid) with
  | none => .error .unknownFluid
  | some c => .ok c

/-- What `_build_interp` computes for a pair, ignoring the cache: `None`
for a prop without a column, else the grid build. -/
def pureBuild (tbl : Table) (pm : List (String × String))
    (fluid prop : String) : Except BuildErr (Option Grid) :=
  match pm.lookup prop with
  | none => .ok none
  | some col => build_grid tbl fluid col

/-- `_build_interp`: serve from cache, else build and cache the result;
the duplicate-index `ValueError` escapes before any cache write. -/
def build_interp (tbl : Table) (pm : List (String × String))
    (cache : Cache) (fluid prop : String) :
    Except BuildErr (Option Grid) × Cache :=
  match cache.lookup (fluid, prop) with
  | some g => (.ok g, cache)
  | none =>
    match pm.lookup prop with
    | none => (.ok none, ((fluid, prop), none) :: cache)
    | some col =>
      match build_grid tbl fluid col with
      | .error e => (.error e, cache)
      | .ok g => (.ok g, ((fluid, prop), g) :: cache)

/-- The entry `query` ends up storing for one property, as a pure
function of the table. -/
def entryFor (tbl : Table) (pm : List (String × String)) (fluid : String)
    (T P : Val) (prop : String) : Entry :=
  match pureBuild tbl pm fluid prop with
  | .ok (some g) =>
    match gridEval g T P with
    | some v => .value v
    | none => .na
  | _ => .na

/-- The `for prop in props` loop of `query`, threading the cache; an
exception escaping `_build_interp` aborts the loop but keeps the cache
writes already made. -/
def runProps (tbl : Table) (pm : List (String × String)) (fluid : String)
    (T P : Val) : List String → Cache →
    Except QErr (List (String × Entry)) × Cache
  | [], cache => (.ok [], cache)
  | prop :: rest, cache =>
    match build_interp tbl pm cache fluid prop with
    | (.error _, c1) => (.error .buildFailure, c1)
    | (.ok gopt, c1) =>
      let entry : Entry :=
        match gopt with
        | none => .na
        | some g =>
          match gridEval g T P with
          | some v => .value v
          | none => .na
      match runProps tbl pm fluid T P rest c1 with
      | (.error e, c2) => (.error e, c2)
      | (.ok out, c2) => (.ok ((prop, entry) :: out), c2)

/-- `query`: resolve the fluid, check the per-fluid bounds (temperature
first), default/filter the requested properties against `_prop_map`, then
evaluate each one. -/
def FluidLibrary.query (e : FluidLibrary) (fluid : String) (T P : Val)
    (props : Option (List String)) :
    Except QErr (List (String × Entry)) × FluidLibrary :=
  match canonical_fluid e.aliases fluid with
  | .error err => (.error err, e)
  | .ok canon =>
    match e.ranges.lookup canon with
    | none => (.error .keyError, e)
    | some none => (.error .outOfRange, e)
    | some (some (tmin, tmax, pmin, pmax)) =>
      if ¬ (tmin ≤ T ∧ T ≤ tmax) then (.error .outOfRange, e)
      else if ¬ (pmin ≤ P ∧ P ≤ pmax) then (.error .outOfRange, e)
      else
        let base : List String := match props with
          | none => e.prop_map.map (·.1)
          | some l => l
        let ps := base.filter (fun p => (e.prop_map.lookup p).isSome)
        let rc := runProps e.df e.prop_map canon T P ps e.cache
        (rc.1, { e with cache := rc.2 })

/-- `available_properties`: resolve the fluid (for the error), then
return the sorted global `_prop_map` keys, independent of the fluid. -/
def available_properties (e : FluidLibrary) (fluid : String) :
    Except QErr (List String) :=
  match canonical_fluid e.aliases fluid with
  | .error err => .error err
  | .ok _ => .ok (sortStrings (e.prop_map.map (·.1)))

/-- `available_fluids` as the engine method. -/
def FluidLibrary.available_fluids (e : FluidLibrary) : List String :=
  available_fluids_of e.aliases

/-! ### Concrete tables used by the end-to-end claims and witnesses -/

/-- The end-to-end table of §8 of the spec: four water density rows from
`coolprop` on a full 2×2 grid. -/
def waterTable : Table :=
  { columns := ["fluid", "t", "p", "density"],
    rows := [
      ⟨"water", "coolprop", 300, 100000, [("density", some 997)]⟩,
      ⟨"water", "coolprop", 310, 100000, [("density", some 993)]⟩,
      ⟨"water", "coolprop", 300, 200000, [("density", some 998)]⟩,
      ⟨"water", "coolprop", 310, 200000, [("density", some 994)]⟩ ] }

/-! ### Helper lemmas about association-list lookup -/

theorem lookup_cons_key {k k0 : String × String} {g0 : Option Grid}
    (c : Cache) :
    List.lookup k ((k0, g0) :: c)
      = if k = k0 then some g0 else List.lookup k c := by
  by_cases h : k = k0
  · subst h; simp
  · simp [List.lookup_cons, beq_false_of_ne h, h]

theorem mem_of_lookup_eq_some {β : Type} {k : String} {v : β}
    {l : List (String × β)} (h : List.lookup k l = some v) : (k, v) ∈ l := by
  obtain ⟨l₁, l₂, rfl, -⟩ := List.lookup_eq_some_iff.mp h
  simp

theorem lookup_map_self {β : Type} (g : String → β) {k : String} :
    ∀ {l : List String}, k ∈ l →
      List.lookup k (l.map (fun f => (f, g f))) = some (g k) := by
  intro l
  induction l with
  | nil => intro h; cases h
  | cons f rest ih =>
    intro h
    by_cases hk : k = f
    · subst hk; simp
    · have : k ∈ rest := by
        cases h with
        | head => exact absurd rfl hk
        | tail _ h => exact h
      simpa [List.lookup_cons, beq_false_of_ne hk] using ih this

theorem lookup_isSome_of_mem_fst {β : Type} {k : String}
    {l : List (String × β)} (h : k ∈ l.map (·.1)) :
    (List.lookup k l).isSome = true := by
  rw [List.lookup_isSome_iff]
  obtain ⟨p, hp, hk⟩ := List.mem_map.mp h
  exact ⟨p, hp, by simp [hk]⟩

/-! ### Lemmas about `upsert` (Python dict assignment) -/

theorem lookup_mapUpsert (d : List (String × String)) (k v : String) :
    List.lookup k (d.map (fun kv => if kv.1 = k then (k, v) else kv))
      = if (d.lookup k).isSome then some v else none := by
  induction d with
  | nil => simp
  | cons kv rest ih =>
    obtain ⟨k1, v1⟩ := kv
    by_cases hk : k1 = k
    · subst hk; simp [List.lookup_cons, ih]
    · simp only [List.map_cons, if_neg hk]
      rw [List.lookup_cons, List.lookup_cons]
      have : (k == k1) = false := beq_false_of_ne (Ne.symm hk)
      simp only [this, ih]

theorem lookup_upsert_self (d : List (String × String)) (k v : String) :
    List.lookup k (upsert d k v) = some v := by
  unfold upsert
  by_cases h : (d.lookup k).isSome = true
  · rw [if_pos h, lookup_mapUpsert, if_pos h]
  · rw [if_neg h, List.lookup_append]
    have h' : List.lookup k d = none := by
      cases hlk : List.lookup k d with
      | none => rfl
      | some x => rw [Bool.not_eq_true, hlk] at h; cases h
    simp [h']

theorem lookup_map_replace_ne (d : List (String × String)) {k k0 : String}
    (v0 : String) (h : k ≠ k0) :
    List.lookup k (d.map (fun kv => if kv.1 = k0 then (k0, v0) else kv))
      = List.lookup k d := by
  induction d with
  | nil => simp
  | cons kv rest ih =>
    obtain ⟨k1, v1⟩ := kv
    by_cases hk : k1 = k0
    · subst hk
      rw [List.map_cons, if_pos rfl, List.lookup_cons, List.lookup_cons]
      simp only [beq_false_of_ne h]
      exact ih
    · rw [List.map_cons, if_neg hk, List.lookup_cons, List.lookup_cons]
      cases hkk : (k == k1) with
      | true => rfl
      | false => exact ih

theorem lookup_upsert_ne (d : List (String × String)) {k k0 : String}
    (v0 : String) (h : k ≠ k0) :
    List.lookup k (upsert d k0 v0) = List.lookup k d := by
  unfold upsert
  by_cases hs : (d.lookup k0).isSome = true
  · rw [if_pos hs]
    exact lookup_map_replace_ne d v0 h
  · rw [if_neg hs, List.lookup_append]
    have : List.lookup k [(k0, v0)] = none := by
      simp [List.lookup_cons, beq_false_of_ne h]
    rw [this, Option.or_none]

theorem mkAliases_eq (tbl : Table) :
    mkAliases tbl
      = upsert (upsert ((tableFluids tbl).foldl
          (fun d f => upsert d (lowerS f) f) []) "h2o" "water")
        "water" "water" := rfl

/-! ### Ranges lookup (shared by the bounds claims) -/

theorem canon_mem_available (al : List (String × String)) {name c : String}
    (h : canonical_fluid al name = .ok c) : c ∈ available_fluids_of al := by
  unfold canonical_fluid at h
  cases hlk : al.lookup (normName name) with
  | none => rw [hlk] at h; cases h
  | some c' =>
    rw [hlk] at h
    cases h
    have hmem : (normName name, c) ∈ al := mem_of_lookup_eq_some hlk
    have : c ∈ al.map (·.2) := List.mem_map.mpr ⟨_, hmem, rfl⟩
    unfold available_fluids_of sortStrings
    rw [(List.perm_insertionSort _ _).mem_iff, List.mem_dedup]
    exact this

theorem init_ranges_lookup (raw : Table) {name canon : String}
    (h : canonical_fluid (FluidLibrary.init raw).aliases name = .ok canon) :
    (FluidLibrary.init raw).ranges.lookup canon
      = some (fluidBounds (FluidLibrary.init raw).df canon) := by
  have hmem : canon ∈ available_fluids_of (FluidLibrary.init raw).aliases :=
    canon_mem_available _ h
  exact lookup_map_self (fluidBounds (normTable raw)) hmem

/-! ### The cache is consistent with pure grid construction -/

/-- Every cached entry is what `_build_interp` would compute from the
immutable table (true of the empty cache, preserved by every build). -/
def cacheOK (tbl : Table) (pm : List (String × String)) (cache : Cache) :
    Prop :=
  ∀ f q g, cache.lookup (f, q) = some g → pureBuild tbl pm f q = .ok g

theorem cacheOK_nil (tbl : Table) (pm : List (String × String)) :
    cacheOK tbl pm [] := by
  intro f q g h
  cases h

theorem build_interp_spec {tbl : Table} {pm : List (String × String)}
    {cache : Cache} (hc : cacheOK tbl pm cache) (fluid prop : String) :
    (build_interp tbl pm cache fluid prop).1 = pureBuild tbl pm fluid prop ∧
    cacheOK tbl pm (build_interp tbl pm cache fluid prop).2 := by
  cases hlk : cache.lookup (fluid, prop) with
  | some g =>
    have he : build_interp tbl pm cache fluid prop = (.ok g, cache) := by
      unfold build_interp
      rw [hlk]
    rw [he]
    exact ⟨(hc fluid prop g hlk).symm, hc⟩
  | none =>
    cases hpm : pm.lookup prop with
    | none =>
      have hp : pureBuild tbl pm fluid prop = .ok none := by
        unfold pureBuild
        rw [hpm]
      have he : build_interp tbl pm cache fluid prop
          = (.ok none, ((fluid, prop), none) :: cache) := by
        unfold build_interp
        rw [hlk, hpm]
      rw [he, hp]
      refine ⟨rfl, ?_⟩
      intro f q g' hg
      rw [lookup_cons_key] at hg
      split at hg
      · rename_i hfq
        cases hg
        have hf : f = fluid := congrArg Prod.fst hfq
        have hq : q = prop := congrArg Prod.snd hfq
        subst hf
        subst hq
        exact hp
      · exact hc f q g' hg
    | some col =>
      have hp : pureBuild tbl pm fluid prop = build_grid tbl fluid col := by
        unfold pureBuild
        rw [hpm]
      cases hbg : build_grid tbl fluid col with
      | error err =>
        have he : build_interp tbl pm cache fluid prop
            = (.error err, cache) := by
          unfold build_interp
          rw [hlk, hpm]
          dsimp only
          rw [hbg]
        rw [he, hp, hbg]
        exact ⟨rfl, hc⟩
      | ok g =>
        have he : build_interp tbl pm cache fluid prop
            = (.ok g, ((fluid, prop), g) :: cache) := by
          unfold build_interp
          rw [hlk, hpm]
          dsimp only
          rw [hbg]
        rw [he, hp, hbg]
        refine ⟨rfl, ?_⟩
        intro f q g' hg
        rw [lookup_cons_key] at hg
        split at hg
        · rename_i hfq
          cases hg
          have hf : f = fluid := congrArg Prod.fst hfq
          have hq : q = prop := congrArg Prod.snd hfq
          subst hf
          subst hq
          rw [hp, hbg]
        · exact hc f q g' hg

theorem runProps_spec {tbl : Table} {pm : List (String × String)}
    (fluid : String) (T P : Val) :
    ∀ (l : List String) (cache : Cache), cacheOK tbl pm cache →
      (∀ q ∈ l, pureBuild tbl pm fluid q ≠ .error .duplicateIndex) →
      (runProps tbl pm fluid T P l cache).1
        = .ok (l.map (fun q => (q, entryFor tbl pm fluid T P q))) := by
  intro l
  induction l with
  | nil => intro cache hc hok; rfl
  | cons prop rest ih =>
    intro cache hc hok
    obtain ⟨hres, hc'⟩ := build_interp_spec hc fluid prop
    cases hpb : pureBuild tbl pm fluid prop with
    | error err =>
      cases err
      exact absurd hpb (hok prop (List.mem_cons_self prop rest))
    | ok gopt =>
      rw [hpb] at hres
      have he : build_interp tbl pm cache fluid prop
          = (.ok gopt, (build_interp tbl pm cache fluid prop).2) :=
        Prod.ext hres rfl
      have hrest := ih (build_interp tbl pm cache fluid prop).2 hc'
        (fun q hq => hok q (List.mem_cons_of_mem prop hq))
      have he2 : runProps tbl pm fluid T P rest
            (build_interp tbl pm cache fluid prop).2
          = (.ok (rest.map (fun q => (q, entryFor tbl pm fluid T P q))),
             (runProps tbl pm fluid T P rest
               (build_interp tbl pm cache fluid prop).2).2) :=
        Prod.ext hrest rfl
      unfold runProps
      rw [he]
      dsimp only
      rw [he2]
      dsimp only
      unfold entryFor
      rw [List.map_cons, hpb]
      cases gopt with
      | none => rfl
      | some g => rfl

/-- The request list `query` ends up iterating over: the `props` argument
(defaulted to the `_prop_map` keys) filtered to mapped properties. -/
def requested (pm : List (String × String)) (props : Option (List String)) :
    List String :=
  let base : List String := match props with
    | none => pm.map (·.1)
    | some l => l
  base.filter (fun p => (pm.lookup p).isSome)

/-- Reduction of an in-bounds `query` on a fresh engine to the property
loop, with the request list defaulted and filtered as the code does. -/
theorem query_to_runProps (tbl : Table) (name canon : String) (T P : Val)
    (props : Option (List String)) (tmin tmax pmin pmax : Val)
    (hres : canonical_fluid (FluidLibrary.init tbl).aliases name = .ok canon)
    (hb : fluidBounds (FluidLibrary.init tbl).df canon
      = some (tmin, tmax, pmin, pmax))
    (hT : tmin ≤ T ∧ T ≤ tmax) (hP : pmin ≤ P ∧ P ≤ pmax) :
    ((FluidLibrary.init tbl).query name T P props).1
      = (runProps (FluidLibrary.init tbl).df (FluidLibrary.init tbl).prop_map
          canon T P
          (requested (FluidLibrary.init tbl).prop_map props) []).1 := by
  have hlk := init_ranges_lookup tbl hres
  rw [hb] at hlk
  unfold FluidLibrary.query
  rw [hres]
  simp only
  rw [hlk]
  simp only
  rw [if_neg (not_not_intro hT), if_neg (not_not_intro hP)]
  rfl

/-! ### Cache monotonicity (claim C10) -/

theorem build_interp_cache_mono (tbl : Table) (pm : List (String × String))
    (cache : Cache) (fluid prop : String) {k : String × String}
    {v : Option Grid} (hv : cache.lookup k = some v) :
    (build_interp tbl pm cache fluid prop).2.lookup k = some v := by
  unfold build_interp
  cases hlk : cache.lookup (fluid, prop) with
  | some g => simpa [hlk] using hv
  | none =>
    have hk : k ≠ (fluid, prop) := by
      intro h; subst h; rw [hlk] at hv; cases hv
    cases hpm : pm.lookup prop with
    | none => simp [hlk, hpm, lookup_cons_key, hk, hv]
    | some col =>
      cases hbg : build_grid tbl fluid col with
      | error e => simp [hlk, hpm, hbg, hv]
      | ok g => simp [hlk, hpm, hbg, lookup_cons_key, hk, hv]

theorem runProps_cache_mono (tbl : Table) (pm : List (String × String))
    (fluid : String) (T P : Val) :
    ∀ (l : List String) (cache : Cache) {k : String × String}
      {v : Option Grid}, cache.lookup k = some v →
      (runProps tbl pm fluid T P l cache).2.lookup k = some v := by
  intro l
  induction l with
  | nil => intro cache k v hv; simpa [runProps] using hv
  | cons prop rest ih =>
    intro cache k v hv
    have h1 := build_interp_cache_mono tbl pm cache fluid prop hv
    unfold runProps
    cases hbi : build_interp tbl pm cache fluid prop with
    | mk res c1 =>
      rw [hbi] at h1
      cases res with
      | error e => simpa using h1
      | ok gopt =>
        have h2 := ih c1 h1
        simp only
        cases hrp : runProps tbl pm fluid T P rest c1 with
        | mk res2 c2 =>
          rw [hrp] at h2
          cases res2 with
          | error e2 => simpa using h2
          | ok out => simpa using h2

/-- C10: a query, whether it returns a mapping or fails, leaves the
loaded table, the property-column map, the alias map and the per-fluid
ranges unchanged, and the cache only gains entries: every existing entry
is still present, with the same value. -/
theorem C10_query_frame (e : FluidLibrary) (fluid : String) (T P : Val)
    (props : Option (List String)) :
    (e.query fluid T P props).2.df = e.df ∧
    (e.query fluid T P props).2.prop_map = e.prop_map ∧
    (e.query fluid T P props).2.aliases = e.aliases ∧
    (e.query fluid T P props).2.ranges = e.ranges ∧
    (∀ (k : String × String) (v : Option Grid),
      e.cache.lookup k = some v →
      (e.query fluid T P props).2.cache.lookup k = some v) := by
  unfold FluidLibrary.query
  split
  · exact ⟨rfl, rfl, rfl, rfl, fun k v hv => hv⟩
  · split
    · exact ⟨rfl, rfl, rfl, rfl, fun k v hv => hv⟩
    · exact ⟨rfl, rfl, rfl, rfl, fun k v hv => hv⟩
    · split
      · exact ⟨rfl, rfl, rfl, rfl, fun k v hv => hv⟩
      · split
        · exact ⟨rfl, rfl, rfl, rfl, fun k v hv => hv⟩
        · exact ⟨rfl, rfl, rfl, rfl, fun k v hv =>
            runProps_cache_mono e.df e.prop_map _ T P _ e.cache hv⟩

/-- Witness for C10 at a concrete engine whose cache already holds an
entry: the query keeps that entry and the rest of the state. -/
theorem C10_query_frame_witness :
    (({ FluidLibrary.init waterTable with
        cache := [(("water", "density"), none)] } : FluidLibrary).query
          "water" 300 100000 (some ["density"])).2.df
      = ({ FluidLibrary.init waterTable with
        cache := [(("water", "density"), none)] } : FluidLibrary).df ∧
    (({ FluidLibrary.init waterTable with
        cache := [(("water", "density"), none)] } : FluidLibrary).query
          "water" 300 100000 (some ["density"])).2.cache.lookup
        ("water", "density") = some none := by
  refine ⟨(C10_query_frame _ "water" 300 100000 (some ["density"])).1, ?_⟩
  exact (C10_query_frame { FluidLibrary.init waterTable with
      cache := [(("water", "density"), none)] } "water" 300 100000
      (some ["density"])).2.2.2.2 ("water", "density") none (by decide)

/-! ### Claim C4: the end-to-end example -/

/-- A table with two fluids over the same columns: `water` samples only
`density` on a full 2×2 grid, `oil` samples only `viscosity`. -/
def mixedTable : Table :=
  { columns := ["fluid", "t", "p", "density", "viscosity"],
    rows := [
      ⟨"water", "coolprop", 300, 100000,
        [("density", some 997), ("viscosity", none)]⟩,
      ⟨"water", "coolprop", 310, 100000,
        [("density", some 993), ("viscosity", none)]⟩,
      ⟨"water", "coolprop", 300, 200000,
        [("density", some 998), ("viscosity", none)]⟩,
      ⟨"water", "coolprop", 310, 200000,
        [("density", some 994), ("viscosity", none)]⟩,
      ⟨"oil", "pykingas", 350, 100000,
        [("density", none), ("viscosity", some (1/2))]⟩ ] }

/-! ### Claim C2: out-of-range queries fail with OutOfRange -/

/-- C2: for a fluid name resolving to a canonical fluid whose rows give
per-fluid bounds (min/max of `t` and `p` over all rows of that fluid,
across all properties), a query with `T` or `P` outside those bounds
fails with `OutOfRange` and never returns a value mapping. -/
theorem C2_out_of_range (tbl : Table) (name canon : String) (T P : Val)
    (props : Option (List String)) (tmin tmax pmin pmax : Val)
    (hres : canonical_fluid (FluidLibrary.init tbl).aliases name = .ok canon)
    (hb : fluidBounds (FluidLibrary.init tbl).df canon
      = some (tmin, tmax, pmin, pmax))
    (hout : T < tmin ∨ tmax < T ∨ P < pmin ∨ pmax < P) :
    ((FluidLibrary.init tbl).query name T P props).1 = .error .outOfRange := by
  have hlk := init_ranges_lookup tbl hres
  rw [hb] at hlk
  unfold FluidLibrary.query
  rw [hres]
  simp only
  rw [hlk]
  simp only
  by_cases h1 : ¬ (tmin ≤ T ∧ T ≤ tmax)
  · rw [if_pos h1]
  · rw [if_neg h1]
    push_neg at h1
    have h2 : ¬ (pmin ≤ P ∧ P ≤ pmax) := by
      rcases hout with h | h | h | h
      · exact absurd h1.1 (not_le.mpr h)
      · exact absurd h1.2 (not_le.mpr h)
      · intro hc; exact absurd hc.1 (not_le.mpr h)
      · intro hc; exact absurd hc.2 (not_le.mpr h)
    rw [if_pos h2]

/-- Witness for C2: on the end-to-end water table, `T = 401` exceeds the
sampled `t_max = 310` and the query errors. -/
theorem C2_out_of_range_witness :
    ((FluidLibrary.init waterTable).query "water" 401 100000
        (some ["density"])).1 = .error .outOfRange :=
  C2_out_of_range waterTable "water" "water" 401 100000 (some ["density"])
    300 310 100000 200000 (by decide) (by decide)
    (Or.inr (Or.inl (by norm_num)))

/-! ### Claim C8: alias resolution -/

/-- C8: with `"water"` among the table's fluids, the names `"H2O"`,
`"h2o"`, `" Water "` and `"water"` all resolve to the canonical fluid
`"water"` (trim + lowercase + synonym table), while any name whose
trimmed lowercase form is not an alias key fails with `UnknownFluid`. -/
theorem C8_alias_resolution (tbl : Table) (name : String)
    (_hw : "water" ∈ tableFluids (FluidLibrary.init tbl).df)
    (hname : (FluidLibrary.init tbl).aliases.lookup (normName name) = none) :
    canonical_fluid (FluidLibrary.init tbl).aliases "H2O" = .ok "water" ∧
    canonical_fluid (FluidLibrary.init tbl).aliases "h2o" = .ok "water" ∧
    canonical_fluid (FluidLibrary.init tbl).aliases " Water " = .ok "water" ∧
    canonical_fluid (FluidLibrary.init tbl).aliases "water" = .ok "water" ∧
    canonical_fluid (FluidLibrary.init tbl).aliases name
      = .error .unknownFluid := by
  have hal : (FluidLibrary.init tbl).aliases = mkAliases (normTable tbl) := rfl
  have hh2o : (FluidLibrary.init tbl).aliases.lookup "h2o" = some "water" := by
    rw [hal, mkAliases_eq]
    rw [lookup_upsert_ne _ _ (by decide), lookup_upsert_self]
  have hwat : (FluidLibrary.init tbl).aliases.lookup "water" = some "water" := by
    rw [hal, mkAliases_eq, lookup_upsert_self]
  refine ⟨?_, ?_, ?_, ?_, ?_⟩
  · unfold canonical_fluid
    have : normName "H2O" = "h2o" := by decide
    rw [this, hh2o]
  · unfold canonical_fluid
    have : normName "h2o" = "h2o" := by decide
    rw [this, hh2o]
  · unfold canonical_fluid
    have : normName " Water " = "water" := by decide
    rw [this, hwat]
  · unfold canonical_fluid
    have : normName "water" = "water" := by decide
    rw [this, hwat]
  · unfold canonical_fluid
    rw [hname]

/-- Witness for C8 on the end-to-end water table, with the unknown name
`"xyz"`. -/
theorem C8_alias_resolution_witness :
    canonical_fluid (FluidLibrary.init waterTable).aliases "H2O"
      = .ok "water" ∧
    canonical_fluid (FluidLibrary.init waterTable).aliases "h2o"
      = .ok "water" ∧
    canonical_fluid (FluidLibrary.init waterTable).aliases " Water "
      = .ok "water" ∧
    canonical_fluid (FluidLibrary.init waterTable).aliases "water"
      = .ok "water" ∧
    canonical_fluid (FluidLibrary.init waterTable).aliases "xyz"
      = .error .unknownFluid :=
  C8_alias_resolution waterTable "xyz" (by decide) (by decide)

/-! ### Claim C9: available_properties is fluid-independent -/

/-- C9: any two successfully resolving fluid names receive the same
`available_properties` result, namely the sorted keys of the global
property-column map — the set is never restricted to the properties
actually sampled for the given fluid. -/
theorem C9_available_properties_global (tbl : Table) (f1 f2 c1 c2 : String)
    (h1 : canonical_fluid (FluidLibrary.init tbl).aliases f1 = .ok c1)
    (h2 : canonical_fluid (FluidLibrary.init tbl).aliases f2 = .ok c2) :
    available_properties (FluidLibrary.init tbl) f1
      = available_properties (FluidLibrary.init tbl) f2 ∧
    available_properties (FluidLibrary.init tbl) f1
      = .ok (sortStrings ((FluidLibrary.init tbl).prop_map.map (·.1))) := by
  unfold available_properties
  rw [h1, h2]
  exact ⟨rfl, rfl⟩

/-- Witness for C9: on the two-fluid table, `"water"` (which samples only
density) and `"oil"` (which samples only viscosity) report the same
property set. -/
theorem C9_available_properties_global_witness :
    available_properties (FluidLibrary.init mixedTable) "water"
      = available_properties (FluidLibrary.init mixedTable) "oil" ∧
    available_properties (FluidLibrary.init mixedTable) "water"
      = .ok (sortStrings ((FluidLibrary.init mixedTable).prop_map.map (·.1))) :=
  C9_available_properties_global mixedTable "water" "oil" "water" "oil"
    (by decide) (by decide)

/-! ### Grid construction outcomes -/

/-- The distinct sorted temperatures sampled for a (fluid, column) pair
(the internal `Ts` of `_build_interp`). -/
def distinctTs (tbl : Table) (fluid col : String) : List Val :=
  sortVals ((propRows tbl fluid col).map (·.t)).dedup

/-- The distinct sorted pressures (the internal `Ps`). -/
def distinctPs (tbl : Table) (fluid col : String) : List Val :=
  sortVals ((propRows tbl fluid col).map (·.p)).dedup

/-- A pair whose filtered rows leave fewer than 2 distinct `T`s or `P`s
builds as unavailable (`None` cached), before the pivot can error. -/
theorem build_grid_sparse (tbl : Table) (fluid col : String)
    (hs : (distinctTs tbl fluid col).length < 2 ∨
      (distinctPs tbl fluid col).length < 2) :
    build_grid tbl fluid col = .ok none := by
  unfold build_grid
  dsimp only
  split
  · rfl
  · rename_i hcond
    exfalso
    simp only [Bool.or_eq_true, decide_eq_true_eq, not_or, not_lt] at hcond
    unfold distinctTs distinctPs at hs
    rcases hs with h | h
    · exact absurd h (not_lt.mpr hcond.1)
    · exact absurd h (not_lt.mpr hcond.2)

/-- A pair with at least 2 distinct `T`s and `P`s whose filtered rows
repeat a `(t, p)` coordinate makes the `unstack` pivot raise. -/
theorem build_grid_dup (tbl : Table) (fluid col : String)
    (hts : 2 ≤ (distinctTs tbl fluid col).length)
    (hps : 2 ≤ (distinctPs tbl fluid col).length)
    (hdup : hasDupTP (propRows tbl fluid col) = true) :
    build_grid tbl fluid col = .error .duplicateIndex := by
  unfold build_grid
  dsimp only
  split
  · rename_i hcond
    exfalso
    simp only [Bool.or_eq_true, decide_eq_true_eq] at hcond
    unfold distinctTs at hts
    unfold distinctPs at hps
    rcases hcond with h | h
    · exact absurd h (not_lt.mpr hts)
    · exact absurd h (not_lt.mpr hps)
  · rfl

/-! ### Claim C1: duplicate rows and source priority -/

/-- The claim C1 scenario: two rows from different sources with different
density values at the same `(T, P)` for the same fluid, inside an
otherwise complete 2×2 water grid. -/
def dupTable : Table :=
  { columns := ["fluid", "t", "p", "density"],
    rows := [
      ⟨"water", "coolprop", 300, 100000, [("density", some 997)]⟩,
      ⟨"water", "thermopack", 300, 100000, [("density", some 990)]⟩,
      ⟨"water", "coolprop", 310, 100000, [("density", some 993)]⟩,
      ⟨"water", "coolprop", 300, 200000, [("density", some 998)]⟩,
      ⟨"water", "coolprop", 310, 200000, [("density", some 994)]⟩ ] }

/-- Counterexample to C1: with two rows from different sources (values
997 and 990) at the same `(300, 1e5)` coordinate, no grid cell holding a
priority-resolved value exists at all — grid construction fails with the
pandas duplicate-index error and the query aborts, instead of selecting
the value of the preferred source. -/
theorem C1_counterexample_duplicate_error :
    build_grid (FluidLibrary.init dupTable).df "water" "density"
      = .error .duplicateIndex ∧
    ((FluidLibrary.init dupTable).query "water" 300 100000
        (some ["density"])).1 = .error .buildFailure := by
  constructor <;> decide

/-- C1 as amended: when the filtered rows of a (fluid, property) pair
repeat an exact `(T, P)` coordinate (whatever the sources of the rows)
and the pair has at least 2 distinct `T`s and `P`s, grid construction
fails with the duplicate-index error, which escapes `query` uncaught; no
source priority is consulted (the engine stores and orders no source). -/
theorem C1_amended_duplicate_rows_error (tbl : Table)
    (name canon prop col : String) (T P : Val) (tmin tmax pmin pmax : Val)
    (hres : canonical_fluid (FluidLibrary.init tbl).aliases name = .ok canon)
    (hb : fluidBounds (FluidLibrary.init tbl).df canon
      = some (tmin, tmax, pmin, pmax))
    (hT : tmin ≤ T ∧ T ≤ tmax) (hP : pmin ≤ P ∧ P ≤ pmax)
    (hcol : (FluidLibrary.init tbl).prop_map.lookup prop = some col)
    (hts : 2 ≤ (distinctTs (FluidLibrary.init tbl).df canon col).length)
    (hps : 2 ≤ (distinctPs (FluidLibrary.init tbl).df canon col).length)
    (hdup : hasDupTP (propRows (FluidLibrary.init tbl).df canon col) = true) :
    build_grid (FluidLibrary.init tbl).df canon col
      = .error .duplicateIndex ∧
    ((FluidLibrary.init tbl).query name T P (some [prop])).1
      = .error .buildFailure := by
  have hbg := build_grid_dup (FluidLibrary.init tbl).df canon col hts hps hdup
  refine ⟨hbg, ?_⟩
  rw [query_to_runProps tbl name canon T P (some [prop])
    tmin tmax pmin pmax hres hb hT hP]
  have hreq : requested (FluidLibrary.init tbl).prop_map (some [prop])
      = [prop] := by
    unfold requested
    dsimp only
    rw [List.filter_cons]
    rw [hcol]
    rfl
  rw [hreq]
  have he : build_interp (FluidLibrary.init tbl).df
      (FluidLibrary.init tbl).prop_map [] canon prop
      = (.error .duplicateIndex, []) := by
    unfold build_interp
    rw [List.lookup_nil]
    dsimp only
    rw [hcol]
    dsimp only
    rw [hbg]
  unfold runProps
  rw [he]

/-- Witness for the amended C1 on the duplicate-row table, at the
interior point `(305, 150000)`. -/
theorem C1_amended_duplicate_rows_error_witness :
    build_grid (FluidLibrary.init dupTable).df "water" "density"
      = .error .duplicateIndex ∧
    ((FluidLibrary.init dupTable).query "water" 305 150000
        (some ["density"])).1 = .error .buildFailure :=
  C1_amended_duplicate_rows_error dupTable "water" "water" "density"
    "density" 305 150000 300 310 100000 200000 (by decide) (by decide)
    (by norm_num) (by norm_num) (by decide) (by decide) (by decide)
    (by decide)

/-! ### Claim C3: data sparsity degrades to "n/a" -/

/-- Table where the water `viscosity` pair is sparse (one distinct `P`)
and the water `density` pair has duplicate rows at one coordinate. -/
def dupSparseTable : Table :=
  { columns := ["fluid", "t", "p", "density", "viscosity"],
    rows := [
      ⟨"water", "coolprop", 300, 100000,
        [("density", some 997), ("viscosity", some (1/1000))]⟩,
      ⟨"water", "thermopack", 300, 100000,
        [("density", some 990), ("viscosity", none)]⟩,
      ⟨"water", "coolprop", 310, 100000,
        [("density", some 993), ("viscosity", none)]⟩,
      ⟨"water", "coolprop", 300, 200000,
        [("density", some 998), ("viscosity", none)]⟩,
      ⟨"water", "coolprop", 310, 200000,
        [("density", some 994), ("viscosity", none)]⟩ ] }

/-- Counterexample to C3 as stated: an in-bounds query on a known fluid
whose request includes a sparse pair (`viscosity`, one distinct `T` and
`P`, which builds as unavailable without error) can still abort the whole
batch — here the other requested property `density` has duplicate rows,
so the query returns no mapping at all and the sparse property never
receives its `"n/a"` marker. -/
theorem C3_counterexample_batch_abort :
    build_grid (FluidLibrary.init dupSparseTable).df "water" "viscosity"
      = .ok none ∧
    ((FluidLibrary.init dupSparseTable).query "water" 300 100000
        (some ["viscosity", "density"])).1 = .error .buildFailure := by
  constructor <;> decide

/-- C3 as amended: provided grid construction raises for none of the
requested properties (duplicate `(T, P)` rows are the only such error),
an in-bounds query containing a sparse pair returns a full mapping in
which the sparse property is `"n/a"` and every property with a valid grid
that evaluates at the point receives its value; sparsity itself never
raises. -/
theorem C3_amended_sparsity_na (tbl : Table) (name canon : String)
    (T P : Val) (tmin tmax pmin pmax : Val) (ps : List String)
    (p0 col0 : String)
    (hres : canonical_fluid (FluidLibrary.init tbl).aliases name = .ok canon)
    (hb : fluidBounds (FluidLibrary.init tbl).df canon
      = some (tmin, tmax, pmin, pmax))
    (hT : tmin ≤ T ∧ T ≤ tmax) (hP : pmin ≤ P ∧ P ≤ pmax)
    (hmem : p0 ∈ ps)
    (hcol : (FluidLibrary.init tbl).prop_map.lookup p0 = some col0)
    (hsparse : (distinctTs (FluidLibrary.init tbl).df canon col0).length < 2
      ∨ (distinctPs (FluidLibrary.init tbl).df canon col0).length < 2)
    (hok : ∀ q ∈ ps, pureBuild (FluidLibrary.init tbl).df
      (FluidLibrary.init tbl).prop_map canon q ≠ .error .duplicateIndex) :
    ∃ out, ((FluidLibrary.init tbl).query name T P (some ps)).1 = .ok out ∧
      out.lookup p0 = some Entry.na ∧
      ∀ q ∈ ps, ∀ g v,
        pureBuild (FluidLibrary.init tbl).df (FluidLibrary.init tbl).prop_map
          canon q = .ok (some g) →
        gridEval g T P = some v →
        out.lookup q = some (Entry.value v) := by
  rw [query_to_runProps tbl name canon T P (some ps)
    tmin tmax pmin pmax hres hb hT hP]
  set df := (FluidLibrary.init tbl).df with hdf
  set pm := (FluidLibrary.init tbl).prop_map with hpm
  have hsub : ∀ q ∈ requested pm (some ps), q ∈ ps := by
    intro q hq
    exact (List.mem_filter.mp hq).1
  rw [runProps_spec canon T P (requested pm (some ps)) []
    (cacheOK_nil df pm) (fun q hq => hok q (hsub q hq))]
  refine ⟨_, rfl, ?_, ?_⟩
  · have hp0 : p0 ∈ requested pm (some ps) := by
      unfold requested
      dsimp only
      rw [List.mem_filter]
      exact ⟨hmem, by rw [hcol]; rfl⟩
    rw [lookup_map_self (entryFor df pm canon T P) hp0]
    have : entryFor df pm canon T P p0 = Entry.na := by
      unfold entryFor pureBuild
      rw [hcol]
      dsimp only
      rw [build_grid_sparse df canon col0 hsparse]
    rw [this]
  · intro q hq g v hpure heval
    have hqcol : (pm.lookup q).isSome = true := by
      cases hql : pm.lookup q with
      | none =>
        exfalso
        unfold pureBuild at hpure
        rw [hql] at hpure
        cases hpure
      | some c => rfl
    have hqmem : q ∈ requested pm (some ps) := by
      unfold requested
      dsimp only
      rw [List.mem_filter]
      exact ⟨hq, hqcol⟩
    rw [lookup_map_self (entryFor df pm canon T P) hqmem]
    have : entryFor df pm canon T P q = Entry.value v := by
      unfold entryFor
      rw [hpure]
      dsimp only
      rw [heval]
    rw [this]

/-- The spec's sparse-grid scenario: water `density` on a full 2×2 grid,
water `viscosity` sampled at 3 distinct `T` values and 1 distinct `P`
value. -/
def sparseTable3 : Table :=
  { columns := ["fluid", "t", "p", "density", "viscosity"],
    rows := [
      ⟨"water", "coolprop", 300, 100000,
        [("density", some 997), ("viscosity", none)]⟩,
      ⟨"water", "coolprop", 310, 100000,
        [("density", some 993), ("viscosity", none)]⟩,
      ⟨"water", "coolprop", 300, 200000,
        [("density", some 998), ("viscosity", none)]⟩,
      ⟨"water", "coolprop", 310, 200000,
        [("density", some 994), ("viscosity", none)]⟩,
      ⟨"water", "pykingas", 300, 100000,
        [("density", none), ("viscosity", some (851/1000000))]⟩,
      ⟨"water", "pykingas", 305, 100000,
        [("density", none), ("viscosity", some (801/1000000))]⟩,
      ⟨"water", "pykingas", 310, 100000,
        [("density", none), ("viscosity", some (751/1000000))]⟩ ] }

/-- Witness for the amended C3 on the sparse-viscosity table: the query
returns a mapping with `viscosity ↦ "n/a"` while `density` (valid grid,
evaluating to 995.5 at the point) receives its value. -/
theorem C3_amended_sparsity_na_witness :
    ∃ out, ((FluidLibrary.init sparseTable3).query "water" 305 150000
        (some ["density", "viscosity"])).1 = .ok out ∧
      out.lookup "viscosity" = some Entry.na ∧
      ∀ q ∈ ["density", "viscosity"], ∀ g v,
        pureBuild (FluidLibrary.init sparseTable3).df
          (FluidLibrary.init sparseTable3).prop_map "water" q
            = .ok (some g) →
        gridEval g 305 150000 = some v →
        out.lookup q = some (Entry.value v) :=
  C3_amended_sparsity_na sparseTable3 "water" "water" 305 150000
    300 310 100000 200000 ["density", "viscosity"] "viscosity" "viscosity"
    (by decide) (by decide) (by norm_num) (by norm_num) (by decide)
    (by decide) (by decide) (by decide)

/-! ### Claim C6: the default property set is global, not per-fluid -/

/-- Counterexample to C6: on the two-fluid table, `water` has a valid
grid only for `density`, yet the defaulted query returns a mapping whose
keys also include `viscosity` (with `"n/a"`), i.e. the keys are the
global property columns, not the per-fluid pairs with a valid grid. -/
theorem C6_counterexample_global_keys :
    ((FluidLibrary.init mixedTable).query "water" 305 150000 none).1
      = .ok [("density", Entry.value (1991/2)), ("viscosity", Entry.na)] ∧
    build_grid (FluidLibrary.init mixedTable).df "water" "viscosity"
      = .ok none := by
  constructor <;> decide

/-- C6 as amended: when `properties` is omitted, the keys of the result
are exactly the keys of the global `_prop_map` (every allowed property
with a matching table column), independent of which pairs have a valid
grid for the queried fluid; pairs without one appear with `"n/a"`. -/
theorem C6_amended_default_keys_global (tbl : Table) (name canon : String)
    (T P : Val) (tmin tmax pmin pmax : Val)
    (hres : canonical_fluid (FluidLibrary.init tbl).aliases name = .ok canon)
    (hb : fluidBounds (FluidLibrary.init tbl).df canon
      = some (tmin, tmax, pmin, pmax))
    (hT : tmin ≤ T ∧ T ≤ tmax) (hP : pmin ≤ P ∧ P ≤ pmax)
    (hok : ∀ q ∈ (FluidLibrary.init tbl).prop_map.map (·.1),
      pureBuild (FluidLibrary.init tbl).df (FluidLibrary.init tbl).prop_map
        canon q ≠ .error .duplicateIndex) :
    ((FluidLibrary.init tbl).query name T P none).1
      = .ok (((FluidLibrary.init tbl).prop_map.map (·.1)).map
          (fun q => (q, entryFor (FluidLibrary.init tbl).df
            (FluidLibrary.init tbl).prop_map canon T P q))) := by
  rw [query_to_runProps tbl name canon T P none
    tmin tmax pmin pmax hres hb hT hP]
  have hreq : requested (FluidLibrary.init tbl).prop_map none
      = (FluidLibrary.init tbl).prop_map.map (·.1) := by
    unfold requested
    dsimp only
    rw [List.filter_eq_self]
    intro q hq
    exact lookup_isSome_of_mem_fst hq
  rw [hreq]
  exact runProps_spec canon T P _ []
    (cacheOK_nil (FluidLibrary.init tbl).df (FluidLibrary.init tbl).prop_map)
    hok

/-- Witness for the amended C6 on the two-fluid table: the defaulted
query on `water` keys its result by the global map
`["density", "viscosity"]`. -/
theorem C6_amended_default_keys_global_witness :
    ((FluidLibrary.init mixedTable).query "water" 305 150000 none).1
      = .ok (((FluidLibrary.init mixedTable).prop_map.map (·.1)).map
          (fun q => (q, entryFor (FluidLibrary.init mixedTable).df
            (FluidLibrary.init mixedTable).prop_map "water" 305 150000 q))) :=
  C6_amended_default_keys_global mixedTable "water" "water" 305 150000
    300 310 100000 200000 (by decide) (by decide) (by norm_num)
    (by norm_num) (by decide)

/-! ### Claim C7: available_fluids versus the table's fluids -/

/-- A table whose only fluid is `"ammonia"`. -/
def ammoniaTable : Table :=
  { columns := ["fluid", "t", "p", "density"],
    rows := [⟨"ammonia", "pykingas", 300, 100000, [("density", some 600)]⟩] }

/-- Counterexample to C7: on a table whose only fluid is `"ammonia"`, the
engine reports the canonical fluids `["ammonia", "water"]` — the synonym
table unconditionally installs `"water"` as an alias target even though no
`"water"` rows exist, so the canonical names are not exactly the distinct
`fluid` values of the table. -/
theorem C7_counterexample_synonym_target :
    (FluidLibrary.init ammoniaTable).available_fluids
      = ["ammonia", "water"] ∧
    tableFluids (FluidLibrary.init ammoniaTable).df = ["ammonia"] := by
  constructor <;> decide

theorem foldl_upsert_fresh :
    ∀ (l : List String) (acc : List (String × String)),
      (∀ f ∈ l, acc.lookup (lowerS f) = none) →
      l.Pairwise (fun a b => lowerS a ≠ lowerS b) →
      l.foldl (fun d f => upsert d (lowerS f) f) acc
        = acc ++ l.map (fun f => (lowerS f, f)) := by
  intro l
  induction l with
  | nil => intro acc _ _; simp
  | cons f rest ih =>
    intro acc hfresh hpw
    rw [List.foldl_cons]
    have hup : upsert acc (lowerS f) f = acc ++ [(lowerS f, f)] := by
      unfold upsert
      rw [if_neg (by rw [hfresh f (List.mem_cons_self f rest)]; simp)]
    rw [hup]
    have h1 : ∀ g ∈ rest,
        (acc ++ [(lowerS f, f)]).lookup (lowerS g) = none := by
      intro g hg
      rw [List.lookup_append, hfresh g (List.mem_cons_of_mem f hg)]
      have hne : lowerS g ≠ lowerS f :=
        Ne.symm ((List.pairwise_cons.mp hpw).1 g hg)
      simp [List.lookup_cons, beq_false_of_ne hne]
    rw [ih (acc ++ [(lowerS f, f)]) h1 (List.pairwise_cons.mp hpw).2]
    simp

/-- Under the hypotheses of the amended C7, the alias dictionary is the
fluid entries in order followed by the two synonym entries. -/
theorem init_aliases_append (tbl : Table)
    (hdist : (tableFluids (FluidLibrary.init tbl).df).Pairwise
      (fun a b => lowerS a ≠ lowerS b))
    (hno : ∀ f ∈ tableFluids (FluidLibrary.init tbl).df,
      lowerS f ≠ "h2o" ∧ lowerS f ≠ "water") :
    (FluidLibrary.init tbl).aliases
      = (tableFluids (FluidLibrary.init tbl).df).map (fun f => (lowerS f, f))
        ++ [("h2o", "water"), ("water", "water")] := by
  have hal : (FluidLibrary.init tbl).aliases = mkAliases (normTable tbl) :=
    rfl
  have hdf : (FluidLibrary.init tbl).df = normTable tbl := rfl
  rw [hdf] at hdist hno ⊢
  rw [hal, mkAliases_eq]
  have hbase := foldl_upsert_fresh (tableFluids (normTable tbl)) []
    (fun f _ => List.lookup_nil) hdist
  rw [List.nil_append] at hbase
  rw [hbase]
  have hl1 : List.lookup "h2o"
      ((tableFluids (normTable tbl)).map (fun f => (lowerS f, f)))
      = none := by
    rw [List.lookup_eq_none_iff]
    intro p hp
    obtain ⟨f, hf, rfl⟩ := List.mem_map.mp hp
    simp only [bne_iff_ne]
    exact Ne.symm (hno f hf).1
  have hu1 : upsert
      ((tableFluids (normTable tbl)).map (fun f => (lowerS f, f)))
      "h2o" "water"
      = (tableFluids (normTable tbl)).map (fun f => (lowerS f, f))
        ++ [("h2o", "water")] := by
    unfold upsert
    rw [if_neg (by rw [hl1]; simp)]
  rw [hu1]
  have hl2 : List.lookup "water"
      ((tableFluids (normTable tbl)).map (fun f => (lowerS f, f))
        ++ [("h2o", "water")]) = none := by
    rw [List.lookup_append]
    have hlw : List.lookup "water"
        ((tableFluids (normTable tbl)).map (fun f => (lowerS f, f)))
        = none := by
      rw [List.lookup_eq_none_iff]
      intro p hp
      obtain ⟨f, hf, rfl⟩ := List.mem_map.mp hp
      simp only [bne_iff_ne]
      exact Ne.symm (hno f hf).2
    rw [hlw]
    simp [List.lookup_cons]
  have hu2 : upsert
      ((tableFluids (normTable tbl)).map (fun f => (lowerS f, f))
        ++ [("h2o", "water")]) "water" "water"
      = ((tableFluids (normTable tbl)).map (fun f => (lowerS f, f))
        ++ [("h2o", "water")]) ++ [("water", "water")] := by
    unfold upsert
    rw [if_neg (by rw [hl2]; simp)]
  rw [hu2, List.append_assoc]
  rfl

/-- C7 as amended: provided no two table fluids share a lowercase form
and no table fluid lowercases to a synonym key (`"h2o"`/`"water"`), the
canonical names reported by `available_fluids` are exactly the distinct
table fluids **plus the synonym target `"water"`**, which the alias table
installs unconditionally; and every alias key maps to exactly one
canonical name (the alias keys are pairwise distinct). -/
theorem C7_amended_fluids_plus_water (tbl : Table)
    (hdist : (tableFluids (FluidLibrary.init tbl).df).Pairwise
      (fun a b => lowerS a ≠ lowerS b))
    (hno : ∀ f ∈ tableFluids (FluidLibrary.init tbl).df,
      lowerS f ≠ "h2o" ∧ lowerS f ≠ "water") :
    ((FluidLibrary.init tbl).available_fluids).toFinset
      = (tableFluids (FluidLibrary.init tbl).df).toFinset ∪ {"water"} ∧
    ((FluidLibrary.init tbl).aliases.map (·.1)).Nodup := by
  have hali := init_aliases_append tbl hdist hno
  constructor
  · ext a
    simp only [List.mem_toFinset, Finset.mem_union, Finset.mem_singleton]
    unfold FluidLibrary.available_fluids available_fluids_of sortStrings
    rw [(List.perm_insertionSort _ _).mem_iff, List.mem_dedup, hali]
    simp [Function.comp]
  · rw [hali, List.map_append, List.map_map]
    rw [List.nodup_append]
    have hcomp : ((fun p => (p : String × String).1) ∘ fun f => (lowerS f, f))
        = lowerS := rfl
    refine ⟨?_, by decide, ?_⟩
    · rw [hcomp]
      exact List.pairwise_map.mpr hdist
    · rw [hcomp]
      intro a ha hmem
      obtain ⟨f, hf, rfl⟩ := List.mem_map.mp ha
      have : lowerS f = "h2o" ∨ lowerS f = "water" := by
        simpa using hmem
      rcases this with h | h
      · exact (hno f hf).1 h
      · exact (hno f hf).2 h

/-- Witness for the amended C7 on the ammonia table. -/
theorem C7_amended_fluids_plus_water_witness :
    ((FluidLibrary.init ammoniaTable).available_fluids).toFinset
      = (tableFluids (FluidLibrary.init ammoniaTable).df).toFinset
        ∪ {"water"} ∧
    ((FluidLibrary.init ammoniaTable).aliases.map (·.1)).Nodup :=
  C7_amended_fluids_plus_water ammoniaTable (by decide) (by decide)

/-! ### Claim C5: exactness at sampled grid points -/

theorem foldMin_le_self (x : Val) : ∀ l : List Val, foldMin x l ≤ x := by
  intro l
  induction l generalizing x with
  | nil => exact le_refl x
  | cons z rest ih =>
    calc foldMin x (z :: rest) = foldMin (min x z) rest := rfl
    _ ≤ min x z := ih (min x z)
    _ ≤ x := min_le_left x z

theorem foldMin_le_mem (x : Val) {y : Val} :
    ∀ l : List Val, y ∈ l → foldMin x l ≤ y := by
  intro l
  induction l generalizing x with
  | nil => intro h; cases h
  | cons z rest ih =>
    intro h
    cases h with
    | head =>
      calc foldMin x (y :: rest) = foldMin (min x y) rest := rfl
      _ ≤ min x y := foldMin_le_self (min x y) rest
      _ ≤ y := min_le_right x y
    | tail _ h => exact ih (min x z) h

theorem le_foldMax_self (x : Val) : ∀ l : List Val, x ≤ foldMax x l := by
  intro l
  induction l generalizing x with
  | nil => exact le_refl x
  | cons z rest ih =>
    calc x ≤ max x z := le_max_left x z
    _ ≤ foldMax (max x z) rest := ih (max x z)
    _ = foldMax x (z :: rest) := rfl

theorem le_foldMax_mem (x : Val) {y : Val} :
    ∀ l : List Val, y ∈ l → y ≤ foldMax x l := by
  intro l
  induction l generalizing x with
  | nil => intro h; cases h
  | cons z rest ih =>
    intro h
    cases h with
    | head =>
      calc y ≤ max x y := le_max_right x y
      _ ≤ foldMax (max x y) rest := le_foldMax_self (max x y) rest
      _ = foldMax x (y :: rest) := rfl
    | tail _ h => exact ih (max x z) h

theorem sortVals_perm (l : List Val) : List.Perm (sortVals l) l :=
  List.perm_insertionSort _ l

theorem sortVals_sorted (l : List Val) : (sortVals l).Sorted (· ≤ ·) :=
  List.sorted_insertionSort _ l

/-- The distinct sorted axis values are strictly sorted. -/
theorem sorted_lt_sortVals_dedup (l : List Val) :
    (sortVals l.dedup).Sorted (· < ·) := by
  have hnd : (sortVals l.dedup).Nodup :=
    ((sortVals_perm l.dedup).nodup_iff).mpr (List.nodup_dedup l)
  have hle := sortVals_sorted l.dedup
  exact (hle.and hnd).imp (fun h => lt_of_le_of_ne h.1 h.2)

theorem get_mono_of_sorted_lt {xs : List Val} (hs : xs.Sorted (· < ·))
    {i j : ℕ} (hi : i < xs.length) (hj : j < xs.length) (hij : i ≤ j) :
    xs.get ⟨i, hi⟩ ≤ xs.get ⟨j, hj⟩ := by
  rcases Nat.lt_or_ge i j with h | h
  · exact le_of_lt (List.pairwise_iff_get.mp hs ⟨i, hi⟩ ⟨j, hj⟩ h)
  · have : i = j := le_antisymm hij h
    subst this
    exact le_refl _

theorem get_strict_of_sorted_lt {xs : List Val} (hs : xs.Sorted (· < ·))
    {i j : ℕ} (hi : i < xs.length) (hj : j < xs.length) (hij : i < j) :
    xs.get ⟨i, hi⟩ < xs.get ⟨j, hj⟩ :=
  List.pairwise_iff_get.mp hs ⟨i, hi⟩ ⟨j, hj⟩ hij

/-- In a strictly sorted list, the values `≤ xs_a` are exactly the first
`a + 1` entries. -/
theorem countP_sorted_lt (xs : List Val) (hs : xs.Sorted (· < ·)) :
    ∀ (a : ℕ) (ha : a < xs.length),
      xs.countP (fun y => decide (y ≤ xs.get ⟨a, ha⟩)) = a + 1 := by
  induction xs with
  | nil =>
    intro a ha
    exact absurd ha (by simp)
  | cons z rest ih =>
    have hz : ∀ y ∈ rest, z < y := (List.pairwise_cons.mp hs).1
    have hrest : rest.Sorted (· < ·) := (List.pairwise_cons.mp hs).2
    intro a ha
    cases a with
    | zero =>
      rw [List.countP_cons]
      have h0 : List.countP
          (fun y => decide (y ≤ (z :: rest).get ⟨0, ha⟩)) rest = 0 := by
        rw [List.countP_eq_zero]
        intro y hy
        simp only [decide_eq_true_eq]
        exact not_le.mpr (hz y hy)
      rw [h0]
      have hzz : (z :: rest).get ⟨0, ha⟩ = z := rfl
      simp [hzz]
    | succ k =>
      have hk : k < rest.length := Nat.succ_lt_succ_iff.mp ha
      have hget : (z :: rest).get ⟨k + 1, ha⟩ = rest.get ⟨k, hk⟩ := rfl
      rw [List.countP_cons, hget, ih hrest k hk]
      have hle : z ≤ rest.get ⟨k, hk⟩ :=
        le_of_lt (hz _ (rest.get_mem k hk))
      simp only [decide_eq_true_eq, if_pos hle]

/-- `cellIndex` at the `a`-th grid value is `a`, clipped to the last
interior cell. -/
theorem cellIndex_get (xs : List Val) (hs : xs.Sorted (· < ·)) (a : ℕ)
    (ha : a < xs.length) :
    cellIndex xs (xs.get ⟨a, ha⟩) = min a (xs.length - 2) := by
  unfold cellIndex
  rw [countP_sorted_lt xs hs a ha]
  simp

theorem headD_eq_get (xs : List Val) (h : 0 < xs.length) :
    xs.headD 0 = xs.get ⟨0, h⟩ := by
  cases xs with
  | nil => simp at h
  | cons z rest => rfl

theorem getD_eq_get {α : Type} (xs : List α) (d : α) :
    ∀ (n : ℕ) (h : n < xs.length), xs.getD n d = xs.get ⟨n, h⟩ := by
  induction xs with
  | nil => intro n h; simp at h
  | cons z rest ih =>
    intro n h
    cases n with
    | zero => rfl
    | succ k => exact ih k (Nat.succ_lt_succ_iff.mp h)

theorem getLastD_eq_get (xs : List Val) (h : 0 < xs.length) :
    xs.getLastD 0 = xs.get ⟨xs.length - 1, by omega⟩ := by
  cases xs with
  | nil => simp at h
  | cons z rest =>
    rw [List.getLastD_eq_getLast?,
      List.getLast?_eq_getLast (z :: rest) (by simp), Option.getD_some,
      List.getLast_eq_get]

/-- Inversion of a successful grid build: the axes are the distinct
sorted coordinate values (hence at least 2 of each), and the cells place
each filtered row's value at its exact coordinates. -/
theorem build_grid_ok_inv {tbl : Table} {fluid col : String} {g : Grid}
    (h : build_grid tbl fluid col = .ok (some g)) :
    g.Ts = distinctTs tbl fluid col ∧ g.Ps = distinctPs tbl fluid col ∧
    2 ≤ g.Ts.length ∧ 2 ≤ g.Ps.length ∧
    g.cells = (distinctTs tbl fluid col).map (fun t =>
      (distinctPs tbl fluid col).map (fun p =>
        ((propRows tbl fluid col).find? (fun r => r.t = t && r.p = p)).bind
          (fun r => r.val col))) := by
  unfold build_grid at h
  dsimp only at h
  split at h
  · exact Option.noConfusion (Except.ok.inj h)
  · rename_i hcond
    split at h
    · exact Except.noConfusion h
    · have hg := (Option.some.inj (Except.ok.inj h))
      simp only [Bool.or_eq_true, decide_eq_true_eq, not_or, not_lt]
        at hcond
      cases hg
      exact ⟨rfl, rfl, hcond.1, hcond.2, rfl⟩

/-- Evaluating the interpolator exactly at the `(a, b)` grid point
returns the stored cell value, provided the four corners of the selected
interpolation cell are all present (scipy's `0 * NaN = NaN` makes any
absent corner poison the result even under a zero weight). -/
theorem gridEval_at_grid_point (g : Grid)
    (hTs : g.Ts.Sorted (· < ·)) (hPs : g.Ps.Sorted (· < ·))
    (h2t : 2 ≤ g.Ts.length) (h2p : 2 ≤ g.Ps.length)
    (a b : ℕ) (ha : a < g.Ts.length) (hb : b < g.Ps.length)
    (vab : Val) (hvab : cellAt g a b = some vab)
    (h00 : (cellAt g (min a (g.Ts.length - 2))
      (min b (g.Ps.length - 2))).isSome = true)
    (h01 : (cellAt g (min a (g.Ts.length - 2))
      (min b (g.Ps.length - 2) + 1)).isSome = true)
    (h10 : (cellAt g (min a (g.Ts.length - 2) + 1)
      (min b (g.Ps.length - 2))).isSome = true)
    (h11 : (cellAt g (min a (g.Ts.length - 2) + 1)
      (min b (g.Ps.length - 2) + 1)).isSome = true) :
    gridEval g (g.Ts.get ⟨a, ha⟩) (g.Ps.get ⟨b, hb⟩) = some vab := by
  have h0t : 0 < g.Ts.length := by omega
  have h0p : 0 < g.Ps.length := by omega
  have hcond : g.Ts.headD 0 ≤ g.Ts.get ⟨a, ha⟩ ∧
      g.Ts.get ⟨a, ha⟩ ≤ g.Ts.getLastD 0 ∧
      g.Ps.headD 0 ≤ g.Ps.get ⟨b, hb⟩ ∧
      g.Ps.get ⟨b, hb⟩ ≤ g.Ps.getLastD 0 := by
    refine ⟨?_, ?_, ?_, ?_⟩
    · rw [headD_eq_get g.Ts h0t]
      exact get_mono_of_sorted_lt hTs h0t ha (Nat.zero_le a)
    · rw [getLastD_eq_get g.Ts h0t]
      exact get_mono_of_sorted_lt hTs ha (by omega) (by omega)
    · rw [headD_eq_get g.Ps h0p]
      exact get_mono_of_sorted_lt hPs h0p hb (Nat.zero_le b)
    · rw [getLastD_eq_get g.Ps h0p]
      exact get_mono_of_sorted_lt hPs hb (by omega) (by omega)
  unfold gridEval
  rw [if_pos hcond]
  dsimp only
  rw [cellIndex_get g.Ts hTs a ha, cellIndex_get g.Ps hPs b hb]
  set i := min a (g.Ts.length - 2) with hidef
  set j := min b (g.Ps.length - 2) with hjdef
  have hilen : i < g.Ts.length := by omega
  have hi1len : i + 1 < g.Ts.length := by omega
  have hjlen : j < g.Ps.length := by omega
  have hj1len : j + 1 < g.Ps.length := by omega
  obtain ⟨v00, hv00⟩ := Option.isSome_iff_exists.mp h00
  obtain ⟨v01, hv01⟩ := Option.isSome_iff_exists.mp h01
  obtain ⟨v10, hv10⟩ := Option.isSome_iff_exists.mp h10
  obtain ⟨v11, hv11⟩ := Option.isSome_iff_exists.mp h11
  rw [hv00, hv01, hv10, hv11]
  dsimp only
  refine congrArg some ?_
  have hacase : i = a ∨ (a = g.Ts.length - 1 ∧ i + 1 = a) := by omega
  have hbcase : j = b ∨ (b = g.Ps.length - 1 ∧ j + 1 = b) := by omega
  have htii : g.Ts.getD i 0 = g.Ts.get ⟨i, hilen⟩ := getD_eq_get _ _ i hilen
  have htii1 : g.Ts.getD (i+1) 0 = g.Ts.get ⟨i+1, hi1len⟩ :=
    getD_eq_get _ _ (i+1) hi1len
  have hpjj : g.Ps.getD j 0 = g.Ps.get ⟨j, hjlen⟩ := getD_eq_get _ _ j hjlen
  have hpjj1 : g.Ps.getD (j+1) 0 = g.Ps.get ⟨j+1, hj1len⟩ :=
    getD_eq_get _ _ (j+1) hj1len
  rcases hacase with hia | ⟨hlast, hia⟩
  all_goals rcases hbcase with hjb | ⟨hplast, hjb⟩
  · -- i = a, j = b: both weights are 0 and the value is the (i, j) corner
    have hyt : (g.Ts.get ⟨a, ha⟩ - g.Ts.getD i 0)
        / (g.Ts.getD (i+1) 0 - g.Ts.getD i 0) = 0 := by
      rw [htii]
      have : g.Ts.get ⟨i, hilen⟩ = g.Ts.get ⟨a, ha⟩ := by
        congr 1
        exact Fin.ext hia
      rw [this, sub_self, zero_div]
    have hyp : (g.Ps.get ⟨b, hb⟩ - g.Ps.getD j 0)
        / (g.Ps.getD (j+1) 0 - g.Ps.getD j 0) = 0 := by
      rw [hpjj]
      have : g.Ps.get ⟨j, hjlen⟩ = g.Ps.get ⟨b, hb⟩ := by
        congr 1
        exact Fin.ext hjb
      rw [this, sub_self, zero_div]
    rw [hyt, hyp]
    have hv : v00 = vab := by
      rw [hia, hjb] at hv00
      rw [hvab] at hv00
      exact (Option.some.inj hv00).symm
    rw [hv]
    ring
  · -- i = a, j + 1 = b: the value is the (i, j+1) corner
    have hyt : (g.Ts.get ⟨a, ha⟩ - g.Ts.getD i 0)
        / (g.Ts.getD (i+1) 0 - g.Ts.getD i 0) = 0 := by
      rw [htii]
      have : g.Ts.get ⟨i, hilen⟩ = g.Ts.get ⟨a, ha⟩ := by
        congr 1
        exact Fin.ext hia
      rw [this, sub_self, zero_div]
    have hyp : (g.Ps.get ⟨b, hb⟩ - g.Ps.getD j 0)
        / (g.Ps.getD (j+1) 0 - g.Ps.getD j 0) = 1 := by
      rw [hpjj, hpjj1]
      have hb1 : g.Ps.get ⟨j+1, hj1len⟩ = g.Ps.get ⟨b, hb⟩ := by
        congr 1
        exact Fin.ext hjb
      rw [hb1]
      have hlt : g.Ps.get ⟨j, hjlen⟩ < g.Ps.get ⟨b, hb⟩ :=
        get_strict_of_sorted_lt hPs hjlen hb (by omega)
      exact div_self (sub_ne_zero.mpr (ne_of_gt hlt))
    rw [hyt, hyp]
    have hv : v01 = vab := by
      rw [hia, hjb] at hv01
      rw [hvab] at hv01
      exact (Option.some.inj hv01).symm
    rw [hv]
    ring
  · -- i + 1 = a, j = b: the value is the (i+1, j) corner
    have hyt : (g.Ts.get ⟨a, ha⟩ - g.Ts.getD i 0)
        / (g.Ts.getD (i+1) 0 - g.Ts.getD i 0) = 1 := by
      rw [htii, htii1]
      have ha1 : g.Ts.get ⟨i+1, hi1len⟩ = g.Ts.get ⟨a, ha⟩ := by
        congr 1
        exact Fin.ext hia
      rw [ha1]
      have hlt : g.Ts.get ⟨i, hilen⟩ < g.Ts.get ⟨a, ha⟩ :=
        get_strict_of_sorted_lt hTs hilen ha (by omega)
      exact div_self (sub_ne_zero.mpr (ne_of_gt hlt))
    have hyp : (g.Ps.get ⟨b, hb⟩ - g.Ps.getD j 0)
        / (g.Ps.getD (j+1) 0 - g.Ps.getD j 0) = 0 := by
      rw [hpjj]
      have : g.Ps.get ⟨j, hjlen⟩ = g.Ps.get ⟨b, hb⟩ := by
        congr 1
        exact Fin.ext hjb
      rw [this, sub_self, zero_div]
    rw [hyt, hyp]
    have hv : v10 = vab := by
      rw [hia, hjb] at hv10
      rw [hvab] at hv10
      exact (Option.some.inj hv10).symm
    rw [hv]
    ring
  · -- i + 1 = a, j + 1 = b: the value is the (i+1, j+1) corner
    have hyt : (g.Ts.get ⟨a, ha⟩ - g.Ts.getD i 0)
        / (g.Ts.getD (i+1) 0 - g.Ts.getD i 0) = 1 := by
      rw [htii, htii1]
      have ha1 : g.Ts.get ⟨i+1, hi1len⟩ = g.Ts.get ⟨a, ha⟩ := by
        congr 1
        exact Fin.ext hia
      rw [ha1]
      have hlt : g.Ts.get ⟨i, hilen⟩ < g.Ts.get ⟨a, ha⟩ :=
        get_strict_of_sorted_lt hTs hilen ha (by omega)
      exact div_self (sub_ne_zero.mpr (ne_of_gt hlt))
    have hyp : (g.Ps.get ⟨b, hb⟩ - g.Ps.getD j 0)
        / (g.Ps.getD (j+1) 0 - g.Ps.getD j 0) = 1 := by
      rw [hpjj, hpjj1]
      have hb1 : g.Ps.get ⟨j+1, hj1len⟩ = g.Ps.get ⟨b, hb⟩ := by
        congr 1
        exact Fin.ext hjb
      rw [hb1]
      have hlt : g.Ps.get ⟨j, hjlen⟩ < g.Ps.get ⟨b, hb⟩ :=
        get_strict_of_sorted_lt hPs hjlen hb (by omega)
      exact div_self (sub_ne_zero.mpr (ne_of_gt hlt))
    rw [hyt, hyp]
    have hv : v11 = vab := by
      rw [hia, hjb] at hv11
      rw [hvab] at hv11
      exact (Option.some.inj hv11).symm
    rw [hv]
    ring

theorem propRows_sub_fluidRows {tbl : Table} {f col : String} {r : Row}
    (hr : r ∈ propRows tbl f col) : r ∈ fluidRows tbl f := by
  obtain ⟨hrow, hcond⟩ := List.mem_filter.mp hr
  rw [Bool.and_eq_true] at hcond
  exact List.mem_filter.mpr ⟨hrow, hcond.1⟩

theorem mem_distinctTs {tbl : Table} {f col : String} {x : Val}
    (hx : x ∈ distinctTs tbl f col) :
    ∃ r ∈ propRows tbl f col, r.t = x := by
  unfold distinctTs at hx
  rw [(sortVals_perm _).mem_iff, List.mem_dedup] at hx
  obtain ⟨r, hr, hrx⟩ := List.mem_map.mp hx
  exact ⟨r, hr, hrx⟩

theorem mem_distinctPs {tbl : Table} {f col : String} {x : Val}
    (hx : x ∈ distinctPs tbl f col) :
    ∃ r ∈ propRows tbl f col, r.p = x := by
  unfold distinctPs at hx
  rw [(sortVals_perm _).mem_iff, List.mem_dedup] at hx
  obtain ⟨r, hr, hrx⟩ := List.mem_map.mp hx
  exact ⟨r, hr, hrx⟩

theorem fluidBounds_some {tbl : Table} {f : String} {r : Row}
    (hr : r ∈ fluidRows tbl f) :
    ∃ bnds, fluidBounds tbl f = some bnds := by
  cases hfr : fluidRows tbl f with
  | nil => rw [hfr] at hr; cases hr
  | cons r0 rs =>
    refine ⟨(foldMin r0.t (rs.map (·.t)), foldMax r0.t (rs.map (·.t)),
      foldMin r0.p (rs.map (·.p)), foldMax r0.p (rs.map (·.p))), ?_⟩
    unfold fluidBounds
    rw [hfr]

theorem fluidBounds_le {tbl : Table} {f : String}
    {tmin tmax pmin pmax : Val}
    (hb : fluidBounds tbl f = some (tmin, tmax, pmin, pmax))
    {r : Row} (hr : r ∈ fluidRows tbl f) :
    tmin ≤ r.t ∧ r.t ≤ tmax ∧ pmin ≤ r.p ∧ r.p ≤ pmax := by
  cases hfr : fluidRows tbl f with
  | nil => rw [hfr] at hr; cases hr
  | cons r0 rs =>
    unfold fluidBounds at hb
    rw [hfr] at hb
    simp only [Option.some.injEq, Prod.mk.injEq] at hb
    obtain ⟨rfl, rfl, rfl, rfl⟩ := hb
    rw [hfr] at hr
    cases hr with
    | head =>
      exact ⟨foldMin_le_self _ _, le_foldMax_self _ _,
        foldMin_le_self _ _, le_foldMax_self _ _⟩
    | tail _ hmem =>
      exact ⟨foldMin_le_mem _ _ (List.mem_map_of_mem (·.t) hmem),
        le_foldMax_mem _ _ (List.mem_map_of_mem (·.t) hmem),
        foldMin_le_mem _ _ (List.mem_map_of_mem (·.p) hmem),
        le_foldMax_mem _ _ (List.mem_map_of_mem (·.p) hmem)⟩

theorem requested_single {pm : List (String × String)} {prop col : String}
    (hcol : pm.lookup prop = some col) :
    requested pm (some [prop]) = [prop] := by
  unfold requested
  dsimp only
  rw [List.filter_cons, hcol]
  rfl

/-- C5 as amended: a query at an exactly sampled grid coordinate of a
(fluid, property) pair with a successfully built grid returns exactly the
value stored at that grid cell, **provided all four corner cells of the
interpolation cell scipy selects there are present**; with an absent
corner the result degrades to `"n/a"` instead (see the counterexample).
No priority resolution is involved: the stored value is the unique row's
value at that coordinate. -/
theorem C5_amended_exact_at_grid_point (tbl : Table)
    (name canon prop col : String) (g : Grid) (a b : ℕ)
    (ha : a < g.Ts.length) (hb : b < g.Ps.length) (vab : Val)
    (hres : canonical_fluid (FluidLibrary.init tbl).aliases name = .ok canon)
    (hcol : (FluidLibrary.init tbl).prop_map.lookup prop = some col)
    (hgrid : build_grid (FluidLibrary.init tbl).df canon col
      = .ok (some g))
    (hvab : cellAt g a b = some vab)
    (h00 : (cellAt g (min a (g.Ts.length - 2))
      (min b (g.Ps.length - 2))).isSome = true)
    (h01 : (cellAt g (min a (g.Ts.length - 2))
      (min b (g.Ps.length - 2) + 1)).isSome = true)
    (h10 : (cellAt g (min a (g.Ts.length - 2) + 1)
      (min b (g.Ps.length - 2))).isSome = true)
    (h11 : (cellAt g (min a (g.Ts.length - 2) + 1)
      (min b (g.Ps.length - 2) + 1)).isSome = true) :
    ((FluidLibrary.init tbl).query name (g.Ts.get ⟨a, ha⟩)
        (g.Ps.get ⟨b, hb⟩) (some [prop])).1
      = .ok [(prop, Entry.value vab)] := by
  obtain ⟨hTs_eq, hPs_eq, h2t', h2p', -⟩ := build_grid_ok_inv hgrid
  have hTs : g.Ts.Sorted (· < ·) := by
    rw [hTs_eq]
    exact sorted_lt_sortVals_dedup _
  have hPs : g.Ps.Sorted (· < ·) := by
    rw [hPs_eq]
    exact sorted_lt_sortVals_dedup _
  have hTmem : g.Ts.get ⟨a, ha⟩ ∈ distinctTs (FluidLibrary.init tbl).df
      canon col := by
    rw [← hTs_eq]
    exact List.get_mem g.Ts a ha
  have hPmem : g.Ps.get ⟨b, hb⟩ ∈ distinctPs (FluidLibrary.init tbl).df
      canon col := by
    rw [← hPs_eq]
    exact List.get_mem g.Ps b hb
  obtain ⟨rT, hrT, hrTt⟩ := mem_distinctTs hTmem
  obtain ⟨rP, hrP, hrPp⟩ := mem_distinctPs hPmem
  have hrTf : rT ∈ fluidRows (FluidLibrary.init tbl).df canon :=
    propRows_sub_fluidRows hrT
  have hrPf : rP ∈ fluidRows (FluidLibrary.init tbl).df canon :=
    propRows_sub_fluidRows hrP
  obtain ⟨⟨tmin, tmax, pmin, pmax⟩, hfb⟩ := fluidBounds_some hrTf
  have hbT := fluidBounds_le hfb hrTf
  have hbP := fluidBounds_le hfb hrPf
  rw [hrTt] at hbT
  rw [hrPp] at hbP
  rw [query_to_runProps tbl name canon (g.Ts.get ⟨a, ha⟩)
    (g.Ps.get ⟨b, hb⟩) (some [prop]) tmin tmax pmin pmax hres hfb
    ⟨hbT.1, hbT.2.1⟩ ⟨hbP.2.2.1, hbP.2.2.2⟩]
  rw [requested_single hcol]
  have hok : ∀ q ∈ [prop], pureBuild (FluidLibrary.init tbl).df
      (FluidLibrary.init tbl).prop_map canon q
        ≠ .error .duplicateIndex := by
    intro q hq
    have : q = prop := by simpa using hq
    subst this
    unfold pureBuild
    rw [hcol]
    dsimp only
    rw [hgrid]
    simp
  rw [runProps_spec canon (g.Ts.get ⟨a, ha⟩) (g.Ps.get ⟨b, hb⟩) [prop] []
    (cacheOK_nil (FluidLibrary.init tbl).df (FluidLibrary.init tbl).prop_map)
    hok]
  have hev : gridEval g (g.Ts.get ⟨a, ha⟩) (g.Ps.get ⟨b, hb⟩) = some vab :=
    gridEval_at_grid_point g hTs hPs h2t' h2p' a b ha hb vab hvab
      h00 h01 h10 h11
  have hent : entryFor (FluidLibrary.init tbl).df
      (FluidLibrary.init tbl).prop_map canon (g.Ts.get ⟨a, ha⟩)
      (g.Ps.get ⟨b, hb⟩) prop = Entry.value vab := by
    unfold entryFor pureBuild
    rw [hcol]
    dsimp only
    rw [hgrid]
    dsimp only
    rw [hev]
  rw [List.map_cons, List.map_nil, hent]

/-- A water density table with one absent grid cell: the 2×2 grid over
`{300, 310} × {1e5, 2e5}` has no row at `(310, 2e5)`. -/
def holeTable : Table :=
  { columns := ["fluid", "t", "p", "density"],
    rows := [
      ⟨"water", "coolprop", 300, 100000, [("density", some 997)]⟩,
      ⟨"water", "coolprop", 310, 100000, [("density", some 993)]⟩,
      ⟨"water", "coolprop", 300, 200000, [("density", some 998)]⟩ ] }

/-- Counterexample to C5 as stated: on `holeTable` the pair
(`water`, `density`) builds a valid grid whose cell at the sampled point
`(300, 1e5)` stores 997, yet the query at exactly that sampled coordinate
returns `"n/a"`, not 997 — the interpolation cell's absent corner at
`(310, 2e5)` makes scipy's weighted sum `NaN` even though its weight is
zero. -/
theorem C5_counterexample_absent_corner :
    build_grid (FluidLibrary.init holeTable).df "water" "density"
      = .ok (some ⟨[300, 310], [100000, 200000],
          [[some 997, some 998], [some 993, none]]⟩) ∧
    ((FluidLibrary.init holeTable).query "water" 300 100000
        (some ["density"])).1 = .ok [("density", Entry.na)] := by
  constructor <;> decide

/-- The grid the engine builds for water density on the end-to-end
table. -/
def waterGrid : Grid :=
  ⟨[300, 310], [100000, 200000],
    [[some 997, some 998], [some 993, some 994]]⟩

/-- Witness for the amended C5: on the full water grid, querying exactly
at the sampled corner `(300, 1e5)` returns the stored value 997. -/
theorem C5_amended_exact_at_grid_point_witness :
    ((FluidLibrary.init waterTable).query "water" 300 100000
        (some ["density"])).1 = .ok [("density", Entry.value 997)] :=
  C5_amended_exact_at_grid_point waterTable "water" "water" "density"
    "density" waterGrid 0 0 (by decide) (by decide) 997 (by decide)
    (by decide) (by decide) (by decide) (by decide) (by decide)
    (by decide) (by decide)

/-- C4: on the spec's end-to-end water table, the query at
`(305, 150000)` returns the bilinear interpolant `995.5 = 1991/2`, and
the query at `(400, 1e5)` fails with `OutOfRange`. -/
theorem C4_end_to_end :
    ((FluidLibrary.init waterTable).query "water" 305 150000
        (some ["density"])).1 = .ok [("density", Entry.value (1991/2))] ∧
    ((FluidLibrary.init waterTable).query "water" 400 100000
        (some ["density"])).1 = .error .outOfRange := by
  constructor <;> decide

end FluidLib
